import Mathlib

/-!
# Verification of the Excel insurance-data ingestion pipeline

A shallow embedding of the ingestion core of this repository
(`src/ingestion.py`, the validation-relevant parts of `src/schema.py`,
and `InsurancePolicyRepository.bulk_create_policies` of `src/database.py`),
together with theorems settling the frozen claims about it.

Modelling conventions:
* Python floats are modelled by `PyNum`: a `Rat` for finite values plus the
  special values `inf`, `-inf` and `nan` that `float(...)` can produce.
  Value comparisons (`<`, `>`, pydantic's `gt/ge/le` checks) are embedded
  with `nan` incomparable, as in IEEE comparison semantics.
* Cell values are the text pandas' `astype(str)` yields for them: the code
  coerces every identity/numeric cell to a string before cleaning, so the
  model's raw rows carry strings.  A cell that was NaN in the sheet arrives
  as the string "nan", exactly as `astype(str)` renders it.
* `str.replace(x, '')` for a single character `x` removes every occurrence
  of that character; it is embedded as a character filter.
* Error and exception message texts are kept structurally close to the
  source's f-strings but not byte-for-byte identical (Python's repr of
  floats and lists is approximated); no claim depends on message bytes.
* Wall-clock fields (`processing_time_ms`) and the constant UUIDs of the
  response are omitted from the report model; no claim mentions them.
-/

/-- A Python float value: finite rational, infinities, or NaN. -/
inductive PyNum where
  | fin (q : Rat)
  | pinf
  | ninf
  | nan
deriving DecidableEq

/-- `x > c` for a Python float `x` and finite bound `c` (NaN compares false). -/
def pgtB (x : PyNum) (c : Rat) : Bool :=
  match x with
  | .fin q => c < q
  | .pinf => true
  | .ninf => false
  | .nan => false

/-- `x < c` for a Python float `x` and finite bound `c` (NaN compares false). -/
def pltB (x : PyNum) (c : Rat) : Bool :=
  match x with
  | .fin q => q < c
  | .pinf => false
  | .ninf => true
  | .nan => false

/-- `x >= c` for a Python float `x` and finite bound `c` (NaN compares false). -/
def pgeB (x : PyNum) (c : Rat) : Bool :=
  match x with
  | .fin q => c ≤ q
  | .pinf => true
  | .ninf => false
  | .nan => false

/-- `x <= c` for a Python float `x` and finite bound `c` (NaN compares false). -/
def pleB (x : PyNum) (c : Rat) : Bool :=
  match x with
  | .fin q => q ≤ c
  | .pinf => false
  | .ninf => true
  | .nan => false

/-- Numeric value of a list of decimal digit characters. -/
def digitsVal (l : List Char) : Nat :=
  l.foldl (fun a c => a * 10 + (c.toNat - 48)) 0

/-- Consume a maximal Python `digitpart` — digits possibly separated by
single underscores flanked by digits — returning the digits (underscores
dropped) and the rest of the input.  This is the lexical rule CPython's
float constructor uses for digit runs. -/
def digitSpan : List Char → List Char × List Char
  | [] => ([], [])
  | c :: rest =>
    if c.isDigit then
      let p := digitSpan rest
      (c :: p.1, p.2)
    else if c = '_' then
      match rest with
      | d :: rest2 =>
        if d.isDigit then
          let p := digitSpan rest2
          (d :: p.1, p.2)
        else ([], c :: rest)
      | [] => ([], [c])
    else ([], c :: rest)

/-- A `digitpart` must begin with a digit. -/
def digitPart? (l : List Char) : Option (List Char × List Char) :=
  match l with
  | c :: _ => if c.isDigit then some (digitSpan l) else none
  | [] => none

/-- Parse the mantissa of a float literal: `digitpart`, `digitpart . [digitpart]`
or `. digitpart`.  Returns (all mantissa digits as one numeral, number of
fractional digits, rest). -/
def parseMantissa (l : List Char) : Option (Nat × Nat × List Char) :=
  match digitPart? l with
  | some (ip, r1) =>
    match r1 with
    | '.' :: r2 =>
      match digitPart? r2 with
      | some (fp, r3) => some (digitsVal (ip ++ fp), fp.length, r3)
      | none => some (digitsVal ip, 0, r2)
    | _ => some (digitsVal ip, 0, r1)
  | none =>
    match l with
    | '.' :: r2 =>
      match digitPart? r2 with
      | some (fp, r3) => some (digitsVal fp, fp.length, r3)
      | none => none
    | _ => none

/-- Parse an optional exponent suffix `e[+-]digitpart`. -/
def parseExpPart (l : List Char) : Option (Int × List Char) :=
  match l with
  | c :: r1 =>
    if c = 'e' ∨ c = 'E' then
      let sr : Int × List Char :=
        match r1 with
        | '+' :: t => (1, t)
        | '-' :: t => (-1, t)
        | _ => (1, r1)
      match digitPart? sr.2 with
      | some (dp, r3) => some (sr.1 * (digitsVal dp : Int), r3)
      | none => none
    else none
  | [] => none

/-- Assemble mantissa digits, fractional length and exponent into the exact
rational value `m * 10 ^ (e - fl)`. -/
def mkRatVal (m fl : Nat) (e : Int) : Rat :=
  if 0 ≤ e then mkRat (m * 10 ^ e.toNat) (10 ^ fl)
  else mkRat m (10 ^ fl * 10 ^ (-e).toNat)

/-- Parse an unsigned numeric float literal (mantissa plus optional exponent),
requiring the whole input to be consumed. -/
def parseNumber? (l : List Char) : Option Rat :=
  match parseMantissa l with
  | some (m, fl, r) =>
    match r with
    | [] => some (mkRatVal m fl 0)
    | _ =>
      match parseExpPart r with
      | some (e, r2) => if r2 = [] then some (mkRatVal m fl e) else none
      | none => none
  | none => none

/-- Embedding of Python's `float(s)` on an already-whitespace-trimmed string:
optional sign, then case-insensitively `inf`/`infinity`/`nan` or a numeric
literal.  `none` models the `ValueError` raised on malformed input. -/
def pyFloat? (l : List Char) : Option PyNum :=
  let sr : Bool × List Char :=
    match l with
    | '+' :: t => (false, t)
    | '-' :: t => (true, t)
    | _ => (false, l)
  let low := sr.2.map Char.toLower
  if low = "inf".toList ∨ low = "infinity".toList then
    some (if sr.1 then .ninf else .pinf)
  else if low = "nan".toList then some .nan
  else
    match parseNumber? sr.2 with
    | some q => some (.fin (if sr.1 then -q else q))
    | none => none

/-- Python `str.lower()` (character-wise; the relevant text is ASCII). -/
def lowerS (s : String) : String :=
  String.mk (s.toList.map Char.toLower)

/-- Python `str.upper()` (character-wise; the relevant text is ASCII). -/
def upperS (s : String) : String :=
  String.mk (s.toList.map Char.toUpper)

/-- Python `str.strip()`: drop leading and trailing whitespace. -/
def trimChars (l : List Char) : List Char :=
  ((l.dropWhile Char.isWhitespace).reverse.dropWhile Char.isWhitespace).reverse

/-- `str.strip()` on a `String`. -/
def trimS (s : String) : String :=
  String.mk (trimChars s.toList)

/-- The cleaning `ExcelParser._clean_numeric_field` applies to a numeric cell
before conversion: `str.replace(',', '')`, `str.replace('₦', '')`,
`str.replace('%', '')` (each removes every occurrence of the character),
then `str.strip()`. -/
def cleanNumericText (s : String) : String :=
  String.mk (trimChars (s.toList.filter (fun c => !(c == ',' || c == '₦' || c == '%'))))

/-- Sanitize one numeric cell, as in the per-value loop of
`ExcelParser._clean_numeric_field`.  Returns the stored value, whether an
`invalid_numeric` error is recorded, and the cleaned text (which is the
`value` the source interpolates into the error and stores as `raw_value`).
Empty text or case-insensitive nan/null/none becomes `0.0` silently; a
failed `float(...)` records an error and substitutes `0.0`. -/
def sanitizeNumeric (raw : String) : PyNum × Bool × String :=
  let v := cleanNumericText raw
  if v = "" ∨ (lowerS v = "nan" ∨ lowerS v = "null" ∨ lowerS v = "none") then
    (.fin 0, false, v)
  else
    match pyFloat? v.toList with
    | some n => (n, false, v)
    | none => (.fin 0, true, v)

/-- A calendar date as `datetime.date` holds it. -/
structure MyDate where
  year : Nat
  month : Nat
  day : Nat
deriving DecidableEq

/-- Total order key for dates (months < 100 and days < 100, so this is the
lexicographic `datetime.date` ordering). -/
def dateKey (d : MyDate) : Nat :=
  d.year * 10000 + d.month * 100 + d.day

/-- `d1 < d2` on dates, as Python compares `datetime.date` values. -/
def dateLtB (d1 d2 : MyDate) : Bool :=
  dateKey d1 < dateKey d2

/-- Gregorian leap year, as `datetime` uses. -/
def isLeap (y : Nat) : Bool :=
  y % 4 = 0 ∧ (y % 100 ≠ 0 ∨ y % 400 = 0)

/-- Days in a month, as `datetime` validates them. -/
def daysInMonth (y m : Nat) : Nat :=
  if m = 2 then (if isLeap y then 29 else 28)
  else if m = 4 ∨ m = 6 ∨ m = 9 ∨ m = 11 then 30
  else 31

/-- The three field kinds appearing in the six date formats of
`ExcelParser.date_formats` (`%d`, `%m`, `%Y`). -/
inductive DField where
  | day
  | month
  | year
deriving DecidableEq

/-- Range constraint CPython's `_strptime` regex places on a 1–2 digit field
(`%d` ranges over 1..31, `%m` over 1..12). -/
def fieldRangeOK (k : DField) (v : Nat) : Bool :=
  match k with
  | .day => 1 ≤ v ∧ v ≤ 31
  | .month => 1 ≤ v ∧ v ≤ 12
  | .year => true

/-- The alternatives (in the order the strptime regex tries them: two digits
before one) for matching one field at the front of the input.  `%Y` is
exactly four digits; `%d` and `%m` are one or two digits within range. -/
def parseFieldAlts (k : DField) (l : List Char) : List (Nat × List Char) :=
  match k with
  | .year =>
    match l with
    | a :: b :: c :: d :: r =>
      if a.isDigit ∧ b.isDigit ∧ c.isDigit ∧ d.isDigit then
        [(digitsVal [a, b, c, d], r)]
      else []
    | _ => []
  | _ =>
    match l with
    | a :: b :: r =>
      (if a.isDigit ∧ b.isDigit ∧ fieldRangeOK k (digitsVal [a, b]) then
        [(digitsVal [a, b], r)] else [])
      ++ (if a.isDigit ∧ fieldRangeOK k (digitsVal [a]) then
        [(digitsVal [a], b :: r)] else [])
    | [a] => if a.isDigit ∧ fieldRangeOK k (digitsVal [a]) then [(digitsVal [a], [])] else []
    | [] => []

/-- One of the six formats in `ExcelParser.date_formats`: three fields
joined by a single separator character. -/
structure DateFmtSpec where
  f1 : DField
  f2 : DField
  f3 : DField
  sep : Char
deriving DecidableEq

/-- `["%d/%m/%Y", "%m/%d/%Y", "%Y-%m-%d", "%d-%m-%Y", "%d.%m.%Y", "%Y/%m/%d"]`
in the fixed order the source tries them. -/
def dateFormats : List DateFmtSpec :=
  [⟨.day, .month, .year, '/'⟩,
   ⟨.month, .day, .year, '/'⟩,
   ⟨.year, .month, .day, '-'⟩,
   ⟨.day, .month, .year, '-'⟩,
   ⟨.day, .month, .year, '.'⟩,
   ⟨.year, .month, .day, '/'⟩]

/-- Value of the field of kind `k` among the three parsed positions. -/
def pickField (k : DField) (f : DateFmtSpec) (v1 v2 v3 : Nat) : Nat :=
  if f.f1 = k then v1 else if f.f2 = k then v2 else v3

/-- Construct the `datetime.date`; `none` models the `ValueError` raised for
an out-of-range component (year 0, or day beyond the month's length). -/
def buildDate (f : DateFmtSpec) (v1 v2 v3 : Nat) : Option MyDate :=
  let y := pickField .year f v1 v2 v3
  let m := pickField .month f v1 v2 v3
  let d := pickField .day f v1 v2 v3
  if 1 ≤ y ∧ 1 ≤ m ∧ m ≤ 12 ∧ 1 ≤ d ∧ d ≤ daysInMonth y m then some ⟨y, m, d⟩
  else none

/-- `datetime.strptime(s, fmt).date()` for one of the six formats: the whole
string must be consumed, fields are tried greedily with backtracking exactly
as the strptime regex does, then the date is range-validated. -/
def runFmt (f : DateFmtSpec) (l : List Char) : Option MyDate :=
  (parseFieldAlts f.f1 l).findSome? fun p1 =>
    match p1.2 with
    | c :: r1 =>
      if c = f.sep then
        (parseFieldAlts f.f2 r1).findSome? fun p2 =>
          match p2.2 with
          | c2 :: r2 =>
            if c2 = f.sep then
              (parseFieldAlts f.f3 r2).findSome? fun p3 =>
                if p3.2 = [] then buildDate f p1.1 p2.1 p3.1 else none
            else none
          | [] => none
      else none
    | [] => none

/-- `ExcelParser._parse_single_date`: strip the string, then try the six
formats in order, the first that parses wins; `none` when all fail. -/
def parseSingleDate (s : String) : Option MyDate :=
  dateFormats.findSome? fun f => runFmt f (trimChars s.toList)

/-- Tokens of the four range regexes of `ExcelParser.date_patterns`:
`\d{1,2}`, `\d{4}`, a literal character, and `\s*`. -/
inductive RTok where
  | d12
  | d4
  | lit (c : Char)
  | ws
deriving DecidableEq

/-- Backtracking matcher for a token sequence against a prefix of the input.
Returns the characters each token consumed plus the remaining input.
`\d{1,2}` greedily tries two digits before one (Python regex alternation);
`\s*` takes the maximal whitespace run, which is exact here because every
`\s*` in these patterns is followed by a literal `-`. -/
def matchToks : List RTok → List Char → Option (List (List Char) × List Char)
  | [], s => some ([], s)
  | .lit c :: ts, s =>
    match s with
    | x :: s2 =>
      if x = c then (matchToks ts s2).map (fun p => ([x] :: p.1, p.2)) else none
    | [] => none
  | .d4 :: ts, s =>
    match s with
    | a :: b :: c :: d :: s2 =>
      if a.isDigit ∧ b.isDigit ∧ c.isDigit ∧ d.isDigit then
        (matchToks ts s2).map (fun p => ([a, b, c, d] :: p.1, p.2))
      else none
    | _ => none
  | .d12 :: ts, s =>
    match s with
    | a :: b :: s2 =>
      if a.isDigit then
        if b.isDigit then
          match matchToks ts s2 with
          | some p => some ([a, b] :: p.1, p.2)
          | none => (matchToks ts (b :: s2)).map (fun p => ([a] :: p.1, p.2))
        else (matchToks ts (b :: s2)).map (fun p => ([a] :: p.1, p.2))
      else none
    | [a] => if a.isDigit then (matchToks ts []).map (fun p => ([a] :: p.1, p.2)) else none
    | [] => none
  | .ws :: ts, s =>
    (matchToks ts (s.dropWhile Char.isWhitespace)).map
      (fun p => (s.takeWhile Char.isWhitespace :: p.1, p.2))

/-- Each of the four patterns captures the same token shape on both sides of
`\s*-\s*`; a pattern is therefore given by its group's token list. -/
def fullToks (g : List RTok) : List RTok :=
  g ++ [.ws, .lit '-', .ws] ++ g

/-- Try to match the full pattern at this exact start position, extracting
the two captured groups. -/
def matchPatHere (g : List RTok) (s : List Char) : Option (List Char × List Char) :=
  match matchToks (fullToks g) s with
  | some p => some ((p.1.take g.length).flatten, (p.1.drop (g.length + 3)).flatten)
  | none => none

/-- `re.search`: try each start position left to right, returning the
captures of the leftmost match. -/
def searchPat (g : List RTok) : List Char → Option (List Char × List Char)
  | [] => matchPatHere g []
  | s@(_ :: t) =>
    match matchPatHere g s with
    | some caps => some caps
    | none => searchPat g t

/-- The four patterns of `ExcelParser.date_patterns`, in priority order:
`DD/MM/YYYY - DD/MM/YYYY`, `YYYY-MM-DD - YYYY-MM-DD`,
`DD-MM-YYYY - DD-MM-YYYY`, `DD.MM.YYYY - DD.MM.YYYY`
(each numeric run `\d{1,2}` except the `\d{4}` years). -/
def datePatterns : List (List RTok) :=
  [[.d12, .lit '/', .d12, .lit '/', .d4],
   [.d4, .lit '-', .d12, .lit '-', .d12],
   [.d12, .lit '-', .d12, .lit '-', .d4],
   [.d12, .lit '.', .d12, .lit '.', .d4]]

/-- Outcome of one pattern inside `_parse_insurance_period`'s loop body:
the pattern must match somewhere and then both captured sides must parse
via the six formats, otherwise the loop falls through. -/
def patternSuccess (g : List RTok) (t : List Char) : Option (MyDate × MyDate) :=
  match searchPat g t with
  | some caps =>
    match parseSingleDate (String.mk caps.1), parseSingleDate (String.mk caps.2) with
    | some d1, some d2 => some (d1, d2)
    | _, _ => none
  | none => none

/-- `ExcelParser._parse_insurance_period`: strip, then run the pattern loop;
`none` models the `ValueError` raised when the loop completes. -/
def parseInsurancePeriod (s : String) : Option (MyDate × MyDate) :=
  datePatterns.findSome? fun g => patternSuccess g (trimChars s.toList)

/-- First-success selection: the image under `f` of the first element
whose image is `some`. -/
def firstSuccess {α β : Type} (f : α → Option β) (l : List α) : Option β :=
  match l.find? (fun a => (f a).isSome) with
  | some a => f a
  | none => none

/-- Modelled from the words of the claim (spec §4.3), for comparison with
`parseInsurancePeriod`: the first pattern that matches anywhere in the
string wins outright, and parsing fails if either captured side of that
match fails all six formats. -/
def parsePeriodFirstMatchSpec (s : String) : Option (MyDate × MyDate) :=
  let t := trimChars s.toList
  match datePatterns.find? (fun g => (searchPat g t).isSome) with
  | some g => patternSuccess g t
  | none => none

/-- Modelled from the amended claim: the first pattern that both matches and
has both captured sides parse under the six formats wins; parsing fails
exactly when no pattern achieves this. -/
def parsePeriodAmendedSpec (s : String) : Option (MyDate × MyDate) :=
  firstSuccess (fun g => patternSuccess g (trimChars s.toList)) datePatterns

/-- A date-typed cell: either an actual `datetime.date` (as produced by
`_transform_period_column`) or still a string (the separate start/end
column path, where `_convert_row_to_policy` applies `strptime`). -/
inductive DateCell where
  | d (dt : MyDate)
  | s (str : String)
deriving DecidableEq

/-- A spreadsheet row after `df.rename` to canonical field names, each
identity/numeric cell as the text `astype(str)` yields for it. -/
structure RawRow where
  policy_number : String
  insured_name : String
  sum_insured : String
  premium : String
  own_retention_ppn : String
  own_retention_sum_insured : String
  own_retention_premium : String
  treaty_ppn : String
  treaty_sum_insured : String
  treaty_premium : String
  period_of_insurance : String
  start_raw : DateCell
  end_raw : DateCell
deriving DecidableEq

/-- A row after `_clean_and_validate_data` (strings stripped and de-nan-ed,
numeric fields coerced) and the period transform. -/
structure CleanRow where
  policy_number : String
  insured_name : String
  sum_insured : PyNum
  premium : PyNum
  own_retention_ppn : PyNum
  own_retention_sum_insured : PyNum
  own_retention_premium : PyNum
  treaty_ppn : PyNum
  treaty_sum_insured : PyNum
  treaty_premium : PyNum
  start_cell : DateCell
  end_cell : DateCell
deriving DecidableEq

/-- An `ExcelValidationError` (schema.py). -/
structure VErr where
  row_number : Nat
  column_name : String
  error_type : String
  error_message : String
  raw_value : String
deriving DecidableEq

/-- Rendering of a Python float into message text (`str(float)`),
approximated: exact for integral values, which is the only case the
concrete scenarios exercise. -/
def pyNumRepr : PyNum → String
  | .fin q => if q.den = 1 then toString q.num ++ ".0" else toString q.num ++ "/" ++ toString q.den
  | .pinf => "inf"
  | .ninf => "-inf"
  | .nan => "nan"

/-- The `invalid_numeric` error `_clean_numeric_field` records; `v` is the
cleaned text (the loop variable `value`), which the source stores as
`raw_value` and interpolates into the message. -/
def mkNumErr (idx : Nat) (fname v : String) : VErr :=
  ⟨idx + 2, fname, "invalid_numeric", "Cannot convert " ++ v ++ " to number", v⟩

/-- The `invalid_percentage` error `_clean_and_validate_data` records for an
out-of-range cleaned value. -/
def mkPctErr (idx : Nat) (fname : String) (v : PyNum) : VErr :=
  ⟨idx + 2, fname, "invalid_percentage",
   "Percentage must be between 0 and 100, got " ++ pyNumRepr v, pyNumRepr v⟩

/-- The `invalid_date_format` error `_transform_period_column` records. -/
def mkPeriodErr (idx : Nat) (raw : String) : VErr :=
  ⟨idx + 2, "period_of_insurance", "invalid_date_format",
   "Cannot parse date range: Cannot parse insurance period: " ++ trimS raw, raw⟩

/-- String-field cleaning in `_clean_and_validate_data`:
`astype(str).str.strip()` then `.replace('nan', '')` (whole-value match). -/
def cleanStringField (x : String) : String :=
  let t := trimS x
  if t = "nan" then "" else t

/-- The eight numeric fields, in the order `_clean_and_validate_data`
cleans them, each with its accessor on the raw row. -/
def numericFields : List (String × (RawRow → String)) :=
  [("sum_insured", RawRow.sum_insured),
   ("premium", RawRow.premium),
   ("own_retention_ppn", RawRow.own_retention_ppn),
   ("own_retention_sum_insured", RawRow.own_retention_sum_insured),
   ("own_retention_premium", RawRow.own_retention_premium),
   ("treaty_ppn", RawRow.treaty_ppn),
   ("treaty_sum_insured", RawRow.treaty_sum_insured),
   ("treaty_premium", RawRow.treaty_premium)]

/-- The two percentage fields, with raw and cleaned accessors. -/
def pctFields : List (String × (RawRow → String) × (CleanRow → PyNum)) :=
  [("own_retention_ppn", RawRow.own_retention_ppn, CleanRow.own_retention_ppn),
   ("treaty_ppn", RawRow.treaty_ppn, CleanRow.treaty_ppn)]

/-- The `invalid_numeric` errors of one numeric column, rows visited in
order with pandas indices starting at `i` (column-major, as the source
cleans field by field). -/
def numErrorsAux (fname : String) (get : RawRow → String) : Nat → List RawRow → List VErr
  | _, [] => []
  | i, r :: rs =>
    (if (sanitizeNumeric (get r)).2.1 then [mkNumErr i fname (sanitizeNumeric (get r)).2.2]
     else [])
      ++ numErrorsAux fname get (i + 1) rs

/-- The `invalid_percentage` errors of one percentage column: flagged when
the cleaned value is `< 0` or `> 100`; the stored value is not modified. -/
def pctErrorsAux (fname : String) (get : RawRow → String) : Nat → List RawRow → List VErr
  | _, [] => []
  | i, r :: rs =>
    (if pltB (sanitizeNumeric (get r)).1 0 ∨ pgtB (sanitizeNumeric (get r)).1 100 then
      [mkPctErr i fname (sanitizeNumeric (get r)).1]
     else [])
      ++ pctErrorsAux fname get (i + 1) rs

/-- Clean one row's identity and numeric cells, with the given date cells. -/
def cleanRowWith (r : RawRow) (sc ec : DateCell) : CleanRow :=
  ⟨cleanStringField r.policy_number, cleanStringField r.insured_name,
   (sanitizeNumeric r.sum_insured).1, (sanitizeNumeric r.premium).1,
   (sanitizeNumeric r.own_retention_ppn).1, (sanitizeNumeric r.own_retention_sum_insured).1,
   (sanitizeNumeric r.own_retention_premium).1, (sanitizeNumeric r.treaty_ppn).1,
   (sanitizeNumeric r.treaty_sum_insured).1, (sanitizeNumeric r.treaty_premium).1, sc, ec⟩

/-- `_transform_period_column` over the rows: parse each period string; on
failure record an `invalid_date_format` error and substitute the hard-coded
fallback range 2024-01-01 .. 2024-12-31. -/
def cleanRowsPeriod : Nat → List RawRow → List CleanRow × List VErr
  | _, [] => ([], [])
  | i, r :: rs =>
    let rest := cleanRowsPeriod (i + 1) rs
    match parseInsurancePeriod r.period_of_insurance with
    | some dd => (cleanRowWith r (.d dd.1) (.d dd.2) :: rest.1, rest.2)
    | none =>
      (cleanRowWith r (.d ⟨2024, 1, 1⟩) (.d ⟨2024, 12, 31⟩) :: rest.1,
       mkPeriodErr i r.period_of_insurance :: rest.2)

/-- Whether `df.dropna` considers a cleaned identity cell missing: after
`astype(str)` the column holds genuine strings (a NaN cell became the text
"nan", then the empty string), so no value is NaN any more. -/
def strIsNA (_x : String) : Bool :=
  false

/-- `_clean_and_validate_data` + `_transform_period_column` + the final
`dropna` of `parse_excel_file`, over all rows.  Errors are ordered as the
source emits them: numeric columns first, then percentage columns, then
period errors. -/
def processRows (hasPeriod : Bool) (rows : List RawRow) : List CleanRow × List VErr :=
  let numErrs := numericFields.flatMap fun fp => numErrorsAux fp.1 fp.2 0 rows
  let pctErrs := pctFields.flatMap fun fp => pctErrorsAux fp.1 fp.2.1 0 rows
  let cp : List CleanRow × List VErr :=
    if hasPeriod then cleanRowsPeriod 0 rows
    else (rows.map (fun r => cleanRowWith r r.start_raw r.end_raw), [])
  let valid := cp.1.filter (fun c => !strIsNA c.policy_number && !strIsNA c.insured_name)
  (valid, numErrs ++ pctErrs ++ cp.2)

/-- The `ExcelColumnMapping` configuration model (schema.py) with its
defaults; `start_date_col`/`end_date_col` default to `None`. -/
structure ExcelColumnMapping where
  policy_number_col : String
  insured_name_col : String
  sum_insured_col : String
  premium_col : String
  own_retention_ppn_col : String
  own_retention_sum_col : String
  own_retention_premium_col : String
  treaty_ppn_col : String
  treaty_sum_col : String
  treaty_premium_col : String
  period_of_insurance_col : String
  start_date_col : Option String
  end_date_col : Option String
deriving DecidableEq

/-- The default `ExcelColumnMapping()` field values. -/
def defaultMapping : ExcelColumnMapping :=
  ⟨"POLICY NUMBER", "INSURED NAME", "SUM INSURED", "PREMIUM",
   "OWN RETENTION %", "OWN RETENTION SUM INSURED", "OWN RETENTION PREMIUM",
   "TREATY %", "TREATY SUM INSURED", "TREATY PREMIUM",
   "PERIOD OF INSURANCE", none, none⟩

/-- The `mapping_rules` dict of `_create_column_mapping`, in insertion
order: canonical field name paired with its candidate header aliases. -/
def mappingRules (m : ExcelColumnMapping) : List (String × List String) :=
  [("policy_number", [m.policy_number_col, "POLICY NO", "POLICY_NUMBER", "POLICY"]),
   ("insured_name", [m.insured_name_col, "INSURED", "CUSTOMER_NAME", "CLIENT_NAME"]),
   ("sum_insured", [m.sum_insured_col, "SUM_INSURED", "COVERAGE_AMOUNT", "INSURED_AMOUNT"]),
   ("premium", [m.premium_col, "PREMIUM_AMOUNT", "ANNUAL_PREMIUM"]),
   ("own_retention_ppn", [m.own_retention_ppn_col, "OWN_RETENTION_PCT", "RETENTION_%"]),
   ("own_retention_sum_insured", [m.own_retention_sum_col, "OWN_RETENTION_SUM", "RETENTION_SUM"]),
   ("own_retention_premium", [m.own_retention_premium_col, "OWN_RETENTION_PREM", "RETENTION_PREMIUM"]),
   ("treaty_ppn", [m.treaty_ppn_col, "TREATY_PCT", "TREATY_%"]),
   ("treaty_sum_insured", [m.treaty_sum_col, "TREATY_SUM", "TREATY_COVERAGE"]),
   ("treaty_premium", [m.treaty_premium_col, "TREATY_PREM"]),
   ("period_of_insurance", [m.period_of_insurance_col, "INSURANCE_PERIOD", "POLICY_PERIOD"]),
   ("insurance_period_start_date",
     match m.start_date_col with | some c => [c] | none => []),
   ("insurance_period_end_date",
     match m.end_date_col with | some c => [c] | none => [])]

/-- Python's substring test `a in b` on character lists. -/
def isInfixB (a : List Char) : List Char → Bool
  | [] => a.isPrefixOf []
  | b@(_ :: t) => a.isPrefixOf b || isInfixB a t

/-- `_find_best_column_match`: for each candidate alias in order, first an
exact (upper-cased) match against the header list, then substring
containment in either direction against each header in sheet order. -/
def findBestColumnMatch (cols : List String) (names : List String) : Option String :=
  names.findSome? fun nm =>
    let nmU := upperS nm
    if cols.contains nmU then some nmU
    else cols.find? fun col => isInfixB nmU.toList col.toList || isInfixB col.toList nmU.toList

/-- Python dict assignment `d[k] = v` on an insertion-ordered assoc list. -/
def upsert (k v : String) : List (String × String) → List (String × String)
  | [] => [(k, v)]
  | (k2, v2) :: t => if k2 = k then (k, v) :: t else (k2, v2) :: upsert k v t

/-- `_create_column_mapping`: build the header → canonical-field dict by
iterating the mapping rules; a later field that picks an already-used
header silently overwrites the earlier entry, as a Python dict does. -/
def createColumnMapping (cols : List String) (m : ExcelColumnMapping) : List (String × String) :=
  (mappingRules m).foldl
    (fun acc rule =>
      match findBestColumnMatch cols rule.2 with
      | some col => upsert col rule.1 acc
      | none => acc)
    []

/-- The ten required financial/identity fields of
`_validate_required_columns`, in source order. -/
def requiredFields : List String :=
  ["policy_number", "insured_name", "sum_insured", "premium",
   "own_retention_ppn", "own_retention_sum_insured", "own_retention_premium",
   "treaty_ppn", "treaty_sum_insured", "treaty_premium"]

/-- The canonical fields the column mapping resolved to. -/
def mappedValues (cmap : List (String × String)) : List String :=
  cmap.map (fun kv => kv.2)

/-- `_validate_required_columns`: required fields that did not resolve, plus
the pseudo-entry for the period when neither the combined period column nor
both separate date columns resolved. -/
def validateRequiredColumns (cmap : List (String × String)) : List String :=
  (requiredFields.filter fun f => !((mappedValues cmap).contains f))
    ++ (if !((mappedValues cmap).contains "period_of_insurance")
          && !((mappedValues cmap).contains "insurance_period_start_date"
                && (mappedValues cmap).contains "insurance_period_end_date") then
          ["insurance period dates"]
        else [])

/-- Whether the combined period column resolved (decides whether
`_transform_period_column` runs). -/
def hasPeriodCol (cmap : List (String × String)) : Bool :=
  (mappedValues cmap).contains "period_of_insurance"

/-- Header normalization `df.columns.str.strip().str.upper()`. -/
def normalizeHeader (h : String) : String :=
  upperS (trimS h)

/-- The tabular content `pd.read_excel` yields: the header strings and the
data rows (already in canonical-field form; see `RawRow`). -/
structure Sheet where
  headers : List String
  rows : List RawRow

/-- `ExcelParser.parse_excel_file`.  `read` is the outcome of reading the
file bytes; any exception inside the method is re-raised as
`ValueError("Excel parsing failed: ...")`.  After a successful read the
column mapping is validated (raising before any row processing when
required columns are missing), then rows are cleaned, the period column
transformed, and rows with missing identity cells dropped. -/
def parse_excel_file (m : ExcelColumnMapping) (read : Except String Sheet) :
    Except String (List CleanRow × List VErr) :=
  match read with
  | .error e => .error ("Excel parsing failed: " ++ e)
  | .ok sh =>
    let cols := sh.headers.map normalizeHeader
    let cmap := createColumnMapping cols m
    let missing := validateRequiredColumns cmap
    if missing.isEmpty then
      .ok (processRows (hasPeriodCol cmap) sh.rows)
    else
      .error ("Excel parsing failed: Missing required columns: "
               ++ String.intercalate ", " missing)

/-- A validated `InsurancePolicyCreate` record. -/
structure PolicyRec where
  policy_number : String
  insured_name : String
  sum_insured : PyNum
  premium : PyNum
  own_retention_ppn : PyNum
  own_retention_sum_insured : PyNum
  own_retention_premium : PyNum
  treaty_ppn : PyNum
  treaty_sum_insured : PyNum
  treaty_premium : PyNum
  insurance_period_start_date : MyDate
  insurance_period_end_date : MyDate
deriving DecidableEq

/-- `datetime.strptime(s, "%Y-%m-%d").date()`. -/
def strptimeYMD (s : String) : Option MyDate :=
  runFmt ⟨.year, .month, .day, '-'⟩ s.toList

/-- Date conversion step of `_convert_row_to_policy`: a string cell goes
through `strptime("%Y-%m-%d")`, a date cell passes through. -/
def resolveDateCell : DateCell → Except String MyDate
  | .d dt => .ok dt
  | .s str =>
    match strptimeYMD str with
    | some dt => .ok dt
    | none => .error ("time data " ++ str ++ " does not match format Y-m-d")

/-- The pydantic validation of `InsurancePolicyBase` (schema.py): string
length bounds, `gt`/`ge`/`le` numeric bounds, the percentage validator, and
the root validator requiring the end date strictly after the start date.
The financial-consistency root validator never fails.  The record is
accepted exactly when every check passes. -/
def pydanticOK (p : PolicyRec) : Bool :=
  1 ≤ p.policy_number.length ∧ p.policy_number.length ≤ 50
    ∧ 1 ≤ p.insured_name.length ∧ p.insured_name.length ≤ 200
    ∧ pgtB p.sum_insured 0 ∧ pgtB p.premium 0
    ∧ pgeB p.own_retention_ppn 0 ∧ pleB p.own_retention_ppn 100
    ∧ pgeB p.own_retention_sum_insured 0 ∧ pgeB p.own_retention_premium 0
    ∧ pgeB p.treaty_ppn 0 ∧ pleB p.treaty_ppn 100
    ∧ pgeB p.treaty_sum_insured 0 ∧ pgeB p.treaty_premium 0
    ∧ dateLtB p.insurance_period_start_date p.insurance_period_end_date

/-- `InsuranceDataIngestionPipeline._convert_row_to_policy`: strip the
identity fields again, reject empty ones, convert string date cells, then
construct the pydantic model; every failure is re-raised as
`ValueError("Data conversion error: ...")`. -/
def convert_row_to_policy (r : CleanRow) : Except String PolicyRec :=
  let pn := trimS r.policy_number
  let nm := trimS r.insured_name
  if pn = "" then .error "Data conversion error: Policy number is required"
  else if nm = "" then .error "Data conversion error: Insured name is required"
  else
    match resolveDateCell r.start_cell with
    | .error e => .error ("Data conversion error: " ++ e)
    | .ok sd =>
      match resolveDateCell r.end_cell with
      | .error e => .error ("Data conversion error: " ++ e)
      | .ok ed =>
        let cand : PolicyRec :=
          ⟨pn, nm, r.sum_insured, r.premium, r.own_retention_ppn,
           r.own_retention_sum_insured, r.own_retention_premium, r.treaty_ppn,
           r.treaty_sum_insured, r.treaty_premium, sd, ed⟩
        if pydanticOK cand then .ok cand
        else .error "Data conversion error: validation error for InsurancePolicyCreate"

/-- The `for idx, row in df.iterrows()` conversion loop: successful
conversions keep their pandas index, failures become
`f"Row {idx + 2}: {e}"` strings. -/
def convertAll : Nat → List CleanRow → List (Nat × PolicyRec) × List String
  | _, [] => ([], [])
  | i, r :: rs =>
    let rest := convertAll (i + 1) rs
    match convert_row_to_policy r with
    | .ok p => ((i, p) :: rest.1, rest.2)
    | .error e => (rest.1, ("Row " ++ toString (i + 2) ++ ": " ++ e) :: rest.2)

/-- The `policies_data` list the pipeline hands to
`bulk_create_policies`. -/
def policiesData (rows : List CleanRow) : List PolicyRec :=
  (convertAll 0 rows).1.map (fun ip => ip.2)

/-- Behaviour of the external collaborators during one run: whether the
success-path audit write raises (and its exception text), and whether the
commit of a given batch index raises (and its exception text). -/
structure Deps where
  auditFails : Bool
  auditMsg : String
  batchFails : Nat → Bool
  batchMsg : Nat → String

/-- The slices `policies_data[i:i+batch_size]` for
`i in range(0, len(policies_data), batch_size)`. -/
def chunksOf (n : Nat) (l : List PolicyRec) : List (List PolicyRec) :=
  (List.range ((l.length + n - 1) / n)).map fun i => (l.drop (i * n)).take n

/-- Result of `bulk_create_policies`: counts, error strings, and the
records actually committed. -/
structure BulkRes where
  succ : Nat
  fail : Nat
  errs : List String
  persisted : List PolicyRec
deriving DecidableEq

/-- The batch loop of `InsurancePolicyRepository.bulk_create_policies`:
each batch commits as a unit; a batch whose commit raises is caught, its
whole size counted as failed and a `Batch {n}: ...` error recorded, and
later batches still run.  (The inner per-record `InsurancePolicy(**...)`
construction is a plain attribute assignment and does not fail for
already-validated records.) -/
def bulkGo (deps : Deps) : Nat → List (List PolicyRec) → BulkRes
  | _, [] => ⟨0, 0, [], []⟩
  | i, b :: bs =>
    let rest := bulkGo deps (i + 1) bs
    if deps.batchFails i then
      ⟨rest.succ, b.length + rest.fail,
       ("Batch " ++ toString (i + 1) ++ ": " ++ deps.batchMsg i) :: rest.errs,
       rest.persisted⟩
    else
      ⟨b.length + rest.succ, rest.fail, rest.errs, b ++ rest.persisted⟩

/-- `bulk_create_policies(policies_data, batch_size)`. -/
def bulk_create_policies (deps : Deps) (policies : List PolicyRec) (batchSize : Nat) : BulkRes :=
  bulkGo deps 0 (chunksOf batchSize policies)

/-- One entry of the report's error list: a parsing `ExcelValidationError`
or a conversion/batch error string.  (The response model stringifies all of
them; the sum type keeps the structure visible instead of modelling
Python's repr.) -/
inductive ErrItem where
  | vErr (e : VErr)
  | sErr (s : String)
deriving DecidableEq

/-- The `ExcelIngestionResponse` fields the claims speak about. -/
structure IngestionReport where
  filename : String
  total_rows : Nat
  processed_rows : Nat
  failed_rows : Nat
  status : String
  errors : List ErrItem
  warnings : List ErrItem
deriving DecidableEq

/-- The report the outer `except` clause of `ingest_excel_file` builds from
an exception text: everything zero, status failed, the single error
string. -/
def failedReport (filename msg : String) : IngestionReport :=
  ⟨filename, 0, 0, 0, "failed", [.sErr msg], []⟩

/-- `InsuranceDataIngestionPipeline.ingest_excel_file`.  Returns the
response and the list of records actually persisted.  The success-path
audit write sits inside the outer `try`: when it raises, control reaches
the outer `except`, which swallows the retried audit failure and returns a
substituted failed report — after the database commits already happened. -/
def ingest_excel_file (deps : Deps) (m : ExcelColumnMapping) (read : Except String Sheet)
    (filename : String) (batchSize : Nat) : IngestionReport × List PolicyRec :=
  match parse_excel_file m read with
  | .error e => (failedReport filename e, [])
  | .ok pr =>
    if pr.1.isEmpty then (failedReport filename "No valid data found in Excel file", [])
    else
      let conv := convertAll 0 pr.1
      let bres := bulk_create_policies deps (policiesData pr.1) batchSize
      let status :=
        if bres.fail = 0 then "success"
        else if 0 < bres.succ then "partial"
        else "failed"
      let report : IngestionReport :=
        ⟨filename, pr.1.length, bres.succ, bres.fail, status,
         pr.2.map ErrItem.vErr ++ conv.2.map ErrItem.sErr ++ bres.errs.map ErrItem.sErr, []⟩
      if deps.auditFails then (failedReport filename deps.auditMsg, bres.persisted)
      else (report, bres.persisted)

/-- Collaborators that do not fail. -/
def benignDeps : Deps :=
  ⟨false, "", fun _ => false, fun _ => ""⟩

/-- Collaborators whose audit-log write raises. -/
def auditDownDeps : Deps :=
  ⟨true, "audit database unavailable", fun _ => false, fun _ => ""⟩

/-- A sheet whose headers are exactly the default expected column names. -/
def canonicalHeaders : List String :=
  ["POLICY NUMBER", "INSURED NAME", "SUM INSURED", "PREMIUM",
   "OWN RETENTION %", "OWN RETENTION SUM INSURED", "OWN RETENTION PREMIUM",
   "TREATY %", "TREATY SUM INSURED", "TREATY PREMIUM", "PERIOD OF INSURANCE"]

/-- The period text shared by the scenario rows. -/
def periodA : String :=
  "01/01/2024 - 31/12/2024"

/-- Scenario row with `sum_insured = "₦1,000,000"` and all else valid. -/
def rowA : RawRow :=
  ⟨"P-001", "Alpha Ltd", "₦1,000,000", "50000", "50", "500000", "25000",
   "50", "500000", "25000", periodA, .s "", .s ""⟩

/-- Scenario row with the invalid percentage `"150"` for `treaty_ppn`. -/
def rowB : RawRow :=
  ⟨"P-002", "Beta Ltd", "2000000", "60000", "50", "1000000", "30000",
   "150", "1000000", "30000", periodA, .s "", .s ""⟩

/-- Scenario row with an empty `insured_name`. -/
def rowC : RawRow :=
  ⟨"P-003", "", "3000000", "70000", "50", "1500000", "35000",
   "50", "1500000", "35000", periodA, .s "", .s ""⟩

/-- The 3-row end-to-end scenario sheet of spec §8. -/
def scenarioSheet : Sheet :=
  ⟨canonicalHeaders, [rowA, rowB, rowC]⟩

/-- A 1-row sheet that ingests without any error. -/
def goodSheet : Sheet :=
  ⟨canonicalHeaders, [rowA]⟩

/-- The policy record row A converts to. -/
def polA : PolicyRec :=
  ⟨"P-001", "Alpha Ltd", .fin 1000000, .fin 50000, .fin 50, .fin 500000,
   .fin 25000, .fin 50, .fin 500000, .fin 25000, ⟨2024, 1, 1⟩, ⟨2024, 12, 31⟩⟩

/-- The date cells the period transform assigns to a row. -/
def periodDatesFor (r : RawRow) : DateCell × DateCell :=
  match parseInsurancePeriod r.period_of_insurance with
  | some dd => (.d dd.1, .d dd.2)
  | none => (.d ⟨2024, 1, 1⟩, .d ⟨2024, 12, 31⟩)

/-- The date cells a cleaned row ends up with, depending on whether the
combined period column was mapped. -/
def rowDatesFor (hp : Bool) (r : RawRow) : DateCell × DateCell :=
  if hp then periodDatesFor r else (r.start_raw, r.end_raw)

/-- The column mapping an ingestion of this sheet computes. -/
def cmapOf (m : ExcelColumnMapping) (sh : Sheet) : List (String × String) :=
  createColumnMapping (sh.headers.map normalizeHeader) m

/-- The failure condition of claim C8, stated over the computed mapping:
one of the ten required fields is unmapped, or neither the combined period
field nor both separate date fields resolved. -/
def missingColumnsProp (cmap : List (String × String)) : Prop :=
  (∃ f ∈ requiredFields, f ∉ mappedValues cmap)
    ∨ (¬ ("period_of_insurance" ∈ mappedValues cmap)
        ∧ ¬ ("insurance_period_start_date" ∈ mappedValues cmap
              ∧ "insurance_period_end_date" ∈ mappedValues cmap))

instance (cmap : List (String × String)) : Decidable (missingColumnsProp cmap) := by
  unfold missingColumnsProp
  infer_instance

/-- Modelled from the words of claim C9: the same cell text with the
thousands-separator commas and currency symbols removed. -/
def stripSymbolsSpec (s : String) : String :=
  String.mk (s.toList.filter (fun c => !(c == ',' || c == '₦')))

/-- Modelled from the words of claim C5 (the format part): the first of the
six formats that parses the stripped string wins. -/
def parseSingleDateFirstFmtSpec (t : String) : Option MyDate :=
  firstSuccess (fun f => runFmt f (trimChars t.toList)) dateFormats

/-- The full domain invariant of claim C10 on a record reaching
persistence. -/
def PolicyInv (p : PolicyRec) : Prop :=
  trimS p.policy_number ≠ "" ∧ trimS p.insured_name ≠ ""
    ∧ pgtB p.sum_insured 0 = true ∧ pgtB p.premium 0 = true
    ∧ pgeB p.own_retention_ppn 0 = true ∧ pleB p.own_retention_ppn 100 = true
    ∧ pgeB p.treaty_ppn 0 = true ∧ pleB p.treaty_ppn 100 = true
    ∧ pgeB p.own_retention_sum_insured 0 = true ∧ pgeB p.own_retention_premium 0 = true
    ∧ pgeB p.treaty_sum_insured 0 = true ∧ pgeB p.treaty_premium 0 = true
    ∧ dateLtB p.insurance_period_start_date p.insurance_period_end_date = true

/-- A period text whose first matching pattern (pattern 1) has an
unparsable left capture, while pattern 2 also matches with parsable
captures. -/
def periodFallthrough : String :=
  "99/99/2024 - 31/12/2024 2024-01-01 - 2024-06-30"

/-- Row whose `sum_insured` cell carries a currency symbol in front of
non-numeric text. -/
def rowX : RawRow :=
  ⟨"P-010", "Delta Ltd", "₦abc", "10", "50", "5", "5", "50", "5", "5",
   periodA, .s "", .s ""⟩

/-- Row with a whitespace-only `insured_name` and an unconvertible
`sum_insured`. -/
def rowD : RawRow :=
  ⟨"P-404", " ", "bad", "10", "50", "5", "5", "50", "5", "5",
   periodA, .s "", .s ""⟩

/-- A 2-row sheet whose second row has a missing identity field. -/
def dropSheet : Sheet :=
  ⟨canonicalHeaders, [rowA, rowD]⟩

/-- A sheet lacking any header the policy-number aliases can resolve. -/
def noPolicySheet : Sheet :=
  ⟨["INSURED NAME", "SUM INSURED", "PREMIUM",
    "OWN RETENTION %", "OWN RETENTION SUM INSURED", "OWN RETENTION PREMIUM",
    "TREATY %", "TREATY SUM INSURED", "TREATY PREMIUM", "PERIOD OF INSURANCE"],
   [rowA]⟩

/-! ## Theorems -/

/-- `findSome?` returns the value of the first element whose image is
`some`, i.e. it agrees with `find?` on the success predicate. -/
theorem findSome?_as_find? {α β : Type} (f : α → Option β) (l : List α) :
    l.findSome? f = firstSuccess f l := by
  induction l with
  | nil => simp [firstSuccess]
  | cons a t ih =>
    cases h : f a with
    | some b => simp [firstSuccess, List.findSome?_cons, List.find?_cons, h]
    | none => simp [firstSuccess, List.findSome?_cons, List.find?_cons, h, ih]

/-- C5 (counterexample): on `periodFallthrough` the first pattern that
matches anywhere is pattern 1, whose left capture fails all six formats, so
the claimed semantics fails — but the source's loop falls through to
pattern 2 and succeeds, so the two disagree. -/
theorem C5_counterexample :
    parseInsurancePeriod periodFallthrough ≠ parsePeriodFirstMatchSpec periodFallthrough
    ∧ parsePeriodFirstMatchSpec periodFallthrough = none
    ∧ parseInsurancePeriod periodFallthrough = some (⟨2024, 1, 1⟩, ⟨2024, 6, 30⟩) := by
  decide

/-- C5 (amended): the patterns are tried in fixed priority order and the
first pattern that both matches anywhere and has both captured sides parse
under the six formats wins; parsing fails exactly when no pattern achieves
this; within a side, the six formats are tried in fixed order and the first
that parses wins. -/
theorem C5_period_parsing_amended (s : String) :
    parseInsurancePeriod s = parsePeriodAmendedSpec s
    ∧ (parseInsurancePeriod s = none ↔
        ∀ g ∈ datePatterns, patternSuccess g (trimChars s.toList) = none)
    ∧ (∀ t : String, parseSingleDate t = parseSingleDateFirstFmtSpec t) := by
  refine ⟨?_, ?_, ?_⟩
  · exact findSome?_as_find? (fun g => patternSuccess g (trimChars s.toList)) datePatterns
  · exact List.findSome?_eq_none_iff
  · intro t
    exact findSome?_as_find? (fun f => runFmt f (trimChars t.toList)) dateFormats

/-- C1 (code evaluation at the failing input): with the same 1-row sheet,
the benign run computes the outcome (status success, 1 row processed); when
only the audit-log write fails, the records are still persisted but the
returned report is the substituted failed one carrying the audit exception
text — the computed outcome is replaced. -/
theorem C1_audit_failure_replaces_outcome :
    (ingest_excel_file benignDeps defaultMapping (.ok goodSheet) "policies.xlsx" 1000).1
      = ⟨"policies.xlsx", 1, 1, 0, "success", [], []⟩
    ∧ (ingest_excel_file auditDownDeps defaultMapping (.ok goodSheet) "policies.xlsx" 1000).1
      = failedReport "policies.xlsx" "audit database unavailable"
    ∧ (ingest_excel_file auditDownDeps defaultMapping (.ok goodSheet) "policies.xlsx" 1000).2
      = [polA] := by
  decide

/-- C2 (counterexample): on the 3-row scenario sheet the report does not
have `processed_rows = 2`, `failed_rows = 1`, `status = "partial"` as
claimed: the out-of-range percentage row is rejected at conversion and the
missing-name row survives the drop but also fails conversion, so the report
is `processed_rows = 1`, `failed_rows = 0`, `status = "success"`. -/
theorem C2_counterexample :
    ¬((ingest_excel_file benignDeps defaultMapping (.ok scenarioSheet) "policies.xlsx" 1000).1.processed_rows = 2
        ∧ (ingest_excel_file benignDeps defaultMapping (.ok scenarioSheet) "policies.xlsx" 1000).1.failed_rows = 1
        ∧ (ingest_excel_file benignDeps defaultMapping (.ok scenarioSheet) "policies.xlsx" 1000).1.status = "partial")
    ∧ (ingest_excel_file benignDeps defaultMapping (.ok scenarioSheet) "policies.xlsx" 1000).1.processed_rows = 1
    ∧ (ingest_excel_file benignDeps defaultMapping (.ok scenarioSheet) "policies.xlsx" 1000).1.status = "success" := by
  decide

/-- C2 (amended): the scenario run yields `total_rows = 3`,
`processed_rows = 1`, `failed_rows = 0`, `status = "success"`; the error
list holds exactly one `ValidationError`, of kind `invalid_percentage`,
plus two row-conversion error strings (the out-of-range-percentage row and
the missing-name row, which is rejected at conversion rather than dropped);
only the fully valid row is persisted. -/
theorem C2_scenario_amended :
    (ingest_excel_file benignDeps defaultMapping (.ok scenarioSheet) "policies.xlsx" 1000).1
      = ⟨"policies.xlsx", 3, 1, 0, "success",
         [.vErr (mkPctErr 1 "treaty_ppn" (.fin 150)),
          .sErr "Row 3: Data conversion error: validation error for InsurancePolicyCreate",
          .sErr "Row 4: Data conversion error: Insured name is required"], []⟩
    ∧ (ingest_excel_file benignDeps defaultMapping (.ok scenarioSheet) "policies.xlsx" 1000).2
      = [polA]
    ∧ ((ingest_excel_file benignDeps defaultMapping (.ok scenarioSheet) "policies.xlsx" 1000).1.errors.countP
        (fun e => match e with
          | .vErr v => v.error_type == "invalid_percentage"
          | .sErr _ => false)) = 1 := by
  decide

/-- C6 (counterexample): the error recorded for the cell text `"₦abc"`
carries the sanitized text `"abc"` as its `raw_value`, not the original raw
cell text `"₦abc"` the claim asserts is preserved. -/
theorem C6_counterexample :
    numErrorsAux "sum_insured" RawRow.sum_insured 0 [rowX]
      = [mkNumErr 0 "sum_insured" "abc"]
    ∧ rowX.sum_insured = "₦abc"
    ∧ (mkNumErr 0 "sum_insured" "abc").error_type = "invalid_numeric"
    ∧ (mkNumErr 0 "sum_insured" "abc").raw_value ≠ rowX.sum_insured := by
  decide

/-- C6 (amended): numeric sanitization is a total function; text that is
empty or case-insensitively nan/null/none after symbol stripping becomes
`0.0` with no error; text whose `float(...)` fails is flagged (yielding an
`invalid_numeric` error carrying the sanitized text) and `0.0` is
substituted; parseable text keeps its parsed value with no error. -/
theorem C6_sanitize_amended (raw : String) :
    ((cleanNumericText raw = ""
        ∨ (lowerS (cleanNumericText raw) = "nan" ∨ lowerS (cleanNumericText raw) = "null"
            ∨ lowerS (cleanNumericText raw) = "none")) →
      sanitizeNumeric raw = (.fin 0, false, cleanNumericText raw))
    ∧ (¬(cleanNumericText raw = ""
          ∨ (lowerS (cleanNumericText raw) = "nan" ∨ lowerS (cleanNumericText raw) = "null"
              ∨ lowerS (cleanNumericText raw) = "none")) →
        pyFloat? (cleanNumericText raw).toList = none →
        sanitizeNumeric raw = (.fin 0, true, cleanNumericText raw))
    ∧ (∀ n : PyNum,
        ¬(cleanNumericText raw = ""
            ∨ (lowerS (cleanNumericText raw) = "nan" ∨ lowerS (cleanNumericText raw) = "null"
                ∨ lowerS (cleanNumericText raw) = "none")) →
        pyFloat? (cleanNumericText raw).toList = some n →
        sanitizeNumeric raw = (n, false, cleanNumericText raw)) := by
  refine ⟨?_, ?_, ?_⟩
  · intro h
    simp [sanitizeNumeric, h]
  · intro h hp
    simp only [String.toList] at hp
    simp [sanitizeNumeric, h, hp]
  · intro n h hp
    simp only [String.toList] at hp
    simp [sanitizeNumeric, h, hp]

/-- Witness for `C6_sanitize_amended` at the inputs `""` (silent default)
and `"₦abc"` (recorded error, value substituted). -/
theorem C6_sanitize_amended_witness :
    sanitizeNumeric "" = (.fin 0, false, cleanNumericText "")
    ∧ sanitizeNumeric "₦abc" = (.fin 0, true, cleanNumericText "₦abc") :=
  ⟨(C6_sanitize_amended "").1 (by decide),
   (C6_sanitize_amended "₦abc").2.1 (by decide) (by decide)⟩

/-- C9: sanitizing a cell text is invariant under first removing its
thousands-separator commas and currency symbols (the cleaning step removes
them all anyway), and in particular `"1,234.50"` yields the same value
`1234.5` as `"1234.50"`. -/
theorem C9_symbol_strip_invariance (s : String) :
    sanitizeNumeric s = sanitizeNumeric (stripSymbolsSpec s)
    ∧ (sanitizeNumeric "1,234.50").1 = .fin (mkRat 2469 2)
    ∧ (sanitizeNumeric "1,234.50").1 = (sanitizeNumeric "1234.50").1 := by
  refine ⟨?_, by decide, by decide⟩
  have hclean : cleanNumericText (stripSymbolsSpec s) = cleanNumericText s := by
    simp only [cleanNumericText, stripSymbolsSpec, String.toList]
    rw [List.filter_filter]
    congr 2
    apply List.filter_congr
    intro c _
    have hb : ∀ x y z : Bool, ((!(x || y || z)) && (!(x || y))) = (!(x || y || z)) := by decide
    exact hb (c == ',') (c == '₦') (c == '%')
  simp only [sanitizeNumeric, hclean]

/-- The rows the period-transform pass produces: each row cleaned, with the
parsed (or fallback) period dates. -/
theorem cleanRowsPeriod_fst (k : Nat) (rows : List RawRow) :
    (cleanRowsPeriod k rows).1
      = rows.map (fun r => cleanRowWith r (periodDatesFor r).1 (periodDatesFor r).2) := by
  induction rows generalizing k with
  | nil => rfl
  | cons a t ih =>
    cases h : parseInsurancePeriod a.period_of_insurance with
    | some dd => simp [cleanRowsPeriod, periodDatesFor, h, ih]
    | none => simp [cleanRowsPeriod, periodDatesFor, h, ih]

/-- The cleaned rows of a run are the input rows mapped through per-row
cleaning; in particular the final `dropna` removes nothing, because after
`astype(str)` no identity cell is NaN. -/
theorem processRows_fst (hp : Bool) (rows : List RawRow) :
    (processRows hp rows).1
      = rows.map (fun r => cleanRowWith r (rowDatesFor hp r).1 (rowDatesFor hp r).2) := by
  cases hp <;>
    simp [processRows, strIsNA, rowDatesFor, cleanRowsPeriod_fst, List.filter_true]

/-- The error list of a run: numeric-column errors, then percentage-column
errors, then period errors. -/
theorem processRows_snd (hp : Bool) (rows : List RawRow) :
    (processRows hp rows).2
      = (numericFields.flatMap fun fp => numErrorsAux fp.1 fp.2 0 rows)
        ++ (pctFields.flatMap fun fp => pctErrorsAux fp.1 fp.2.1 0 rows)
        ++ (if hp then (cleanRowsPeriod 0 rows).2 else []) := by
  cases hp <;> simp [processRows]

/-- A row whose cleaned percentage value is out of range contributes its
`invalid_percentage` error to the column's error list. -/
theorem pctErrorsAux_mem (fname : String) (get : RawRow → String) (rows : List RawRow)
    (k i : Nat) (r : RawRow) (hr : rows.get? i = some r)
    (hout : pltB (sanitizeNumeric (get r)).1 0 ∨ pgtB (sanitizeNumeric (get r)).1 100) :
    mkPctErr (k + i) fname (sanitizeNumeric (get r)).1 ∈ pctErrorsAux fname get k rows := by
  induction rows generalizing k i with
  | nil => simp at hr
  | cons a t ih =>
    cases i with
    | zero =>
      have ha : a = r := by simpa using hr
      subst ha
      simp only [pctErrorsAux, Nat.add_zero]
      rw [if_pos hout]
      exact List.mem_append_left _ (by simp)
    | succ j =>
      have ht : t.get? j = some r := by simpa using hr
      have hrec := ih (k + 1) j ht
      have hidx : k + 1 + j = k + (j + 1) := by omega
      rw [hidx] at hrec
      simp only [pctErrorsAux]
      exact List.mem_append_right _ hrec

/-- A cell whose sanitization flags an error contributes its
`invalid_numeric` error to the column's error list. -/
theorem numErrorsAux_mem (fname : String) (get : RawRow → String) (rows : List RawRow)
    (k i : Nat) (r : RawRow) (hr : rows.get? i = some r)
    (hflag : (sanitizeNumeric (get r)).2.1 = true) :
    mkNumErr (k + i) fname (sanitizeNumeric (get r)).2.2 ∈ numErrorsAux fname get k rows := by
  induction rows generalizing k i with
  | nil => simp at hr
  | cons a t ih =>
    cases i with
    | zero =>
      have ha : a = r := by simpa using hr
      subst ha
      simp only [numErrorsAux, Nat.add_zero]
      rw [if_pos hflag]
      exact List.mem_append_left _ (by simp)
    | succ j =>
      have ht : t.get? j = some r := by simpa using hr
      have hrec := ih (k + 1) j ht
      have hidx : k + 1 + j = k + (j + 1) := by omega
      rw [hidx] at hrec
      simp only [numErrorsAux]
      exact List.mem_append_right _ hrec

/-- C7: for each of the two percentage fields, a row whose coerced value
lies outside `[0, 100]` gets an `invalid_percentage` error recorded, while
the cleaned row keeps the parsed out-of-range value — it is not reset to a
default. -/
theorem C7_percentage_flagged_not_reset (hp : Bool) (rows : List RawRow) (i : Nat) (r : RawRow)
    (fname : String) (getr : RawRow → String) (getc : CleanRow → PyNum)
    (hf : (fname, getr, getc) ∈ pctFields)
    (hr : rows.get? i = some r)
    (hout : pltB (sanitizeNumeric (getr r)).1 0 ∨ pgtB (sanitizeNumeric (getr r)).1 100) :
    mkPctErr i fname (sanitizeNumeric (getr r)).1 ∈ (processRows hp rows).2
    ∧ ∃ c, (processRows hp rows).1.get? i = some c
        ∧ getc c = (sanitizeNumeric (getr r)).1 := by
  constructor
  · have hmem : mkPctErr i fname (sanitizeNumeric (getr r)).1 ∈ pctErrorsAux fname getr 0 rows := by
      simpa using pctErrorsAux_mem fname getr rows 0 i r hr hout
    rw [processRows_snd]
    refine List.mem_append_left _ (List.mem_append_right _ ?_)
    exact List.mem_flatMap.mpr ⟨(fname, getr, getc), hf, hmem⟩
  · rw [processRows_fst, List.get?_map, hr]
    refine ⟨_, rfl, ?_⟩
    have hf2 : (fname, getr, getc) = ("own_retention_ppn", RawRow.own_retention_ppn, CleanRow.own_retention_ppn)
        ∨ (fname, getr, getc) = ("treaty_ppn", RawRow.treaty_ppn, CleanRow.treaty_ppn) := by
      simpa [pctFields] using hf
    rcases hf2 with hf2 | hf2 <;>
      · rcases hf2 with ⟨rfl, rfl, rfl⟩
        rfl

/-- Witness for `C7_percentage_flagged_not_reset` at the scenario row with
`treaty_ppn = "150"`. -/
theorem C7_witness :
    mkPctErr 0 "treaty_ppn" (sanitizeNumeric (RawRow.treaty_ppn rowB)).1 ∈ (processRows true [rowB]).2
    ∧ ∃ c, (processRows true [rowB]).1.get? 0 = some c
        ∧ CleanRow.treaty_ppn c = (sanitizeNumeric (RawRow.treaty_ppn rowB)).1 :=
  C7_percentage_flagged_not_reset true [rowB] 0 rowB "treaty_ppn"
    RawRow.treaty_ppn CleanRow.treaty_ppn
    (List.Mem.tail _ (List.Mem.head _)) rfl (by decide)

/-- `dropWhile` is idempotent. -/
theorem dropWhile_idem (p : Char → Bool) (l : List Char) :
    (l.dropWhile p).dropWhile p = l.dropWhile p := by
  induction l with
  | nil => rfl
  | cons a t ih =>
    by_cases h : p a = true
    · rw [List.dropWhile_cons, if_pos h]
      exact ih
    · rw [List.dropWhile_cons, if_neg h, List.dropWhile_cons, if_neg h]

/-- A prefix of a list `dropWhile` leaves unchanged is itself left
unchanged. -/
theorem dropWhile_prefix_fixed {p : Char → Bool} {u v : List Char}
    (hu : u.dropWhile p = u) (hv : v <+: u) : v.dropWhile p = v := by
  cases v with
  | nil => rfl
  | cons a t =>
    have hpa : p a = false := by
      by_contra hne
      have hpa : p a = true := by simpa using hne
      obtain ⟨w, hw⟩ := hv
      rw [← hw, List.cons_append, List.dropWhile_cons, if_pos hpa] at hu
      have hle := (List.dropWhile_suffix (l := t ++ w) p).length_le
      rw [hu] at hle
      simp at hle
    rw [List.dropWhile_cons, if_neg (by simp [hpa])]

/-- Stripping a string twice is the same as stripping it once. -/
theorem trimChars_idem (l : List Char) : trimChars (trimChars l) = trimChars l := by
  have hAfix : (l.dropWhile Char.isWhitespace).dropWhile Char.isWhitespace
      = l.dropWhile Char.isWhitespace := dropWhile_idem _ l
  have hprefix : trimChars l <+: l.dropWhile Char.isWhitespace := by
    have hs := (List.dropWhile_suffix
      (l := (l.dropWhile Char.isWhitespace).reverse) Char.isWhitespace).reverse
    simpa [trimChars] using hs
  have h1 : (trimChars l).dropWhile Char.isWhitespace = trimChars l :=
    dropWhile_prefix_fixed hAfix hprefix
  have h2 : ((l.dropWhile Char.isWhitespace).reverse.dropWhile Char.isWhitespace).dropWhile
      Char.isWhitespace
      = (l.dropWhile Char.isWhitespace).reverse.dropWhile Char.isWhitespace :=
    dropWhile_idem _ _
  show (((trimChars l).dropWhile Char.isWhitespace).reverse.dropWhile
    Char.isWhitespace).reverse = trimChars l
  rw [h1]
  have h3 : (trimChars l).reverse
      = (l.dropWhile Char.isWhitespace).reverse.dropWhile Char.isWhitespace := by
    simp [trimChars]
  rw [h3, h2]
  simp [trimChars]

/-- `str.strip()` is idempotent. -/
theorem trimS_idem (s : String) : trimS (trimS s) = trimS s := by
  have hlist : (String.mk (trimChars s.toList)).toList = trimChars s.toList := rfl
  simp only [trimS, hlist, trimChars_idem]

/-- Inversion for the conversion loop: a policy that appears in the
converted list with index `i` comes from the row at position `i - k`, on
which the conversion succeeded. -/
theorem convertAll_mem (l : List CleanRow) (k i : Nat) (p : PolicyRec)
    (h : (i, p) ∈ (convertAll k l).1) :
    ∃ j r, l.get? j = some r ∧ i = k + j ∧ convert_row_to_policy r = .ok p := by
  induction l generalizing k with
  | nil => simp [convertAll] at h
  | cons a t ih =>
    simp only [convertAll] at h
    cases hc : convert_row_to_policy a with
    | ok q =>
      rw [hc] at h
      simp only [List.mem_cons, Prod.mk.injEq] at h
      rcases h with ⟨hik, hpq⟩ | h
      · exact ⟨0, a, rfl, by omega, by rw [hc, hpq]⟩
      · obtain ⟨j, r, hjr, hij, hok⟩ := ih (k + 1) h
        exact ⟨j + 1, r, by simpa using hjr, by omega, hok⟩
    | error e =>
      rw [hc] at h
      obtain ⟨j, r, hjr, hij, hok⟩ := ih (k + 1) h
      exact ⟨j + 1, r, by simpa using hjr, by omega, hok⟩

/-- Inversion for `_convert_row_to_policy`: a successful conversion passed
every pydantic check, and its identity fields are the stripped cleaned
cells. -/
theorem convert_ok_inv (r : CleanRow) (p : PolicyRec)
    (h : convert_row_to_policy r = .ok p) :
    pydanticOK p = true
    ∧ p.policy_number = trimS r.policy_number
    ∧ p.insured_name = trimS r.insured_name := by
  simp only [convert_row_to_policy] at h
  by_cases h1 : trimS r.policy_number = ""
  · rw [if_pos h1] at h
    exact absurd h (by simp)
  · rw [if_neg h1] at h
    by_cases h2 : trimS r.insured_name = ""
    · rw [if_pos h2] at h
      exact absurd h (by simp)
    · rw [if_neg h2] at h
      cases hsd : resolveDateCell r.start_cell with
      | error e =>
        simp [hsd] at h
      | ok sd =>
        simp only [hsd] at h
        cases hed : resolveDateCell r.end_cell with
        | error e =>
          simp [hed] at h
        | ok ed =>
          simp only [hed] at h
          split at h
          · obtain rfl := (Except.ok.injEq _ _).mp h
            exact ⟨by assumption, rfl, rfl⟩
          · exact absurd h (by simp)

/-- C10: every record in the list handed to `bulk_create_policies`
satisfies the full domain invariant — non-empty trimmed identity fields,
strictly positive sum insured and premium, percentages within `[0, 100]`,
non-negative split amounts, and end date strictly after start date —
because `_convert_row_to_policy` raises on any violation and such rows
never enter the batch, whatever the earlier pipeline stages produced. -/
theorem C10_persistence_invariant (cleaned : List CleanRow) (p : PolicyRec)
    (hmem : p ∈ policiesData cleaned) : PolicyInv p := by
  unfold policiesData at hmem
  obtain ⟨⟨i, q⟩, hin, hq⟩ := List.mem_map.mp hmem
  subst hq
  show PolicyInv q
  obtain ⟨j, r, hjr, hij, hok⟩ := convertAll_mem cleaned 0 i q hin
  obtain ⟨hpy, hpn, hnm⟩ := convert_ok_inv r q hok
  unfold pydanticOK at hpy
  have hP := of_decide_eq_true hpy
  obtain ⟨hl1, hl2, hn1, hn2, hsum, hprem, horp1, horp2, hors, horpr,
    htp1, htp2, hts, htpr, hdate⟩ := hP
  refine ⟨?_, ?_, hsum, hprem, horp1, horp2, htp1, htp2, hors, horpr, hts, htpr, hdate⟩
  · rw [hpn, trimS_idem]
    intro hc
    rw [hpn, hc] at hl1
    simp at hl1
  · rw [hnm, trimS_idem]
    intro hc
    rw [hnm, hc] at hn1
    simp at hn1

set_option maxRecDepth 4000 in
/-- Witness for `C10_persistence_invariant` at the concrete converted
record of the fully valid scenario row. -/
theorem C10_witness : PolicyInv polA :=
  C10_persistence_invariant
    [cleanRowWith rowA (.d ⟨2024, 1, 1⟩) (.d ⟨2024, 12, 31⟩)] polA (by decide)

/-- `_validate_required_columns` reports a missing column exactly when one
of the ten required fields is unmapped or the period alternatives are both
unavailable. -/
theorem contains_iff_memS {l : List String} {a : String} : l.contains a = true ↔ a ∈ l := by
  simp [List.elem_eq_mem]

/-- `_validate_required_columns` reports a missing column exactly when one
of the ten required fields is unmapped or the period alternatives are both
unavailable. -/
theorem validateRequiredColumns_ne_nil_iff (cmap : List (String × String)) :
    validateRequiredColumns cmap ≠ [] ↔ missingColumnsProp cmap := by
  unfold validateRequiredColumns missingColumnsProp
  constructor
  · intro h
    by_cases hf : (requiredFields.filter fun f => !((mappedValues cmap).contains f)) = []
    · right
      have hite : ¬((if !((mappedValues cmap).contains "period_of_insurance")
            && !((mappedValues cmap).contains "insurance_period_start_date"
                  && (mappedValues cmap).contains "insurance_period_end_date") then
            ["insurance period dates"] else []) = []) := by
        intro hc
        exact h (by rw [hf, hc]; rfl)
      by_cases hcond : (!((mappedValues cmap).contains "period_of_insurance")
          && !((mappedValues cmap).contains "insurance_period_start_date"
                && (mappedValues cmap).contains "insurance_period_end_date")) = true
      · obtain ⟨hc1, hc2⟩ := Bool.and_eq_true _ _ |>.mp hcond
        rw [Bool.not_eq_true'] at hc1 hc2
        constructor
        · intro hmem
          have hc := contains_iff_memS.mpr hmem
          rw [hc1] at hc
          simp at hc
        · rintro ⟨hm1, hm2⟩
          rw [contains_iff_memS.mpr hm1, contains_iff_memS.mpr hm2] at hc2
          simp at hc2
      · exact absurd (by rw [if_neg hcond]) hite
    · left
      obtain ⟨f, hfmem⟩ := List.exists_mem_of_ne_nil _ hf
      rw [List.mem_filter] at hfmem
      have hcf : (mappedValues cmap).contains f = false := by
        cases hq : (mappedValues cmap).contains f
        · rfl
        · have h2 := hfmem.2
          rw [hq] at h2
          simp at h2
      refine ⟨f, hfmem.1, fun hmem => ?_⟩
      have hc := contains_iff_memS.mpr hmem
      rw [hcf] at hc
      simp at hc
  · rintro (⟨f, hfin, hnot⟩ | ⟨hp, hsep⟩)
    · intro hnil
      rw [List.append_eq_nil] at hnil
      have hmf := List.filter_eq_nil_iff.mp hnil.1 f hfin
      have hcf : (mappedValues cmap).contains f = false := by
        cases hq : (mappedValues cmap).contains f
        · rfl
        · exact absurd (contains_iff_memS.mp hq) hnot
      exact hmf (by simpa using hnot)
    · intro hnil
      rw [List.append_eq_nil] at hnil
      have h2 := hnil.2
      have hcond : (!((mappedValues cmap).contains "period_of_insurance")
          && !((mappedValues cmap).contains "insurance_period_start_date"
                && (mappedValues cmap).contains "insurance_period_end_date")) = true := by
        rw [Bool.and_eq_true, Bool.not_eq_true', Bool.not_eq_true']
        constructor
        · cases hq : (mappedValues cmap).contains "period_of_insurance"
          · rfl
          · exact absurd (contains_iff_memS.mp hq) hp
        · cases hq1 : (mappedValues cmap).contains "insurance_period_start_date"
          · rfl
          · cases hq2 : (mappedValues cmap).contains "insurance_period_end_date"
            · rfl
            · exact absurd ⟨contains_iff_memS.mp hq1, contains_iff_memS.mp hq2⟩ hsep
      rw [if_pos hcond] at h2
      simp at h2

/-- C8: parsing a readable sheet raises (before any row is processed)
exactly when the computed column mapping leaves one of the ten required
fields unmapped or provides neither the combined period column nor both
separate date columns; otherwise it proceeds to row processing. -/
theorem C8_required_columns_fail_fast (m : ExcelColumnMapping) (sh : Sheet) :
    ((∃ e, parse_excel_file m (.ok sh) = .error e) ↔ missingColumnsProp (cmapOf m sh))
    ∧ (¬ missingColumnsProp (cmapOf m sh) →
        parse_excel_file m (.ok sh)
          = .ok (processRows (hasPeriodCol (cmapOf m sh)) sh.rows)) := by
  have hiff := validateRequiredColumns_ne_nil_iff (cmapOf m sh)
  have hunfold : parse_excel_file m (.ok sh)
      = if (validateRequiredColumns (cmapOf m sh)).isEmpty then
          Except.ok (processRows (hasPeriodCol (cmapOf m sh)) sh.rows)
        else
          Except.error ("Excel parsing failed: Missing required columns: "
            ++ String.intercalate ", " (validateRequiredColumns (cmapOf m sh))) := rfl
  by_cases hnil : validateRequiredColumns (cmapOf m sh) = []
  · rw [hunfold, if_pos (List.isEmpty_iff.mpr hnil)]
    refine ⟨⟨?_, ?_⟩, fun _ => rfl⟩
    · rintro ⟨e, he⟩
      simp at he
    · intro hmp
      exact absurd hnil (hiff.mpr hmp)
  · rw [hunfold, if_neg (fun hc => hnil (List.isEmpty_iff.mp hc))]
    refine ⟨⟨fun _ => hiff.mp hnil, fun _ => ⟨_, rfl⟩⟩, fun hmp => absurd (hiff.mp hnil) hmp⟩

/-- Witness for `C8_required_columns_fail_fast`: a sheet without a
resolvable policy-number header fails before row processing, and the
canonical sheet proceeds. -/
theorem C8_witness :
    (∃ e, parse_excel_file defaultMapping (.ok noPolicySheet) = .error e)
    ∧ parse_excel_file defaultMapping (.ok goodSheet)
      = .ok (processRows (hasPeriodCol (cmapOf defaultMapping goodSheet)) goodSheet.rows) :=
  ⟨(C8_required_columns_fail_fast defaultMapping noPolicySheet).1.mpr (by decide),
   (C8_required_columns_fail_fast defaultMapping goodSheet).2 (by decide)⟩

/-- C4: the public entry point always returns a report and never raises:
a file-read failure yields a failed report carrying the single wrapped
exception text, with zero processed rows and nothing persisted; an
unresolved column mapping aborts the same way before any persistence; and
on every input whatsoever the returned status is one of success, partial,
failed. -/
theorem C4_entry_point_always_reports (deps : Deps) (m : ExcelColumnMapping)
    (fn : String) (bs : Nat) :
    (∀ e, ingest_excel_file deps m (.error e) fn bs
        = (failedReport fn ("Excel parsing failed: " ++ e), []))
    ∧ (∀ sh : Sheet, missingColumnsProp (cmapOf m sh) →
        ∃ msg, ingest_excel_file deps m (.ok sh) fn bs = (failedReport fn msg, [])
          ∧ (failedReport fn msg).processed_rows = 0
          ∧ (failedReport fn msg).errors = [.sErr msg])
    ∧ (∀ read, (ingest_excel_file deps m read fn bs).1.status = "success"
        ∨ (ingest_excel_file deps m read fn bs).1.status = "partial"
        ∨ (ingest_excel_file deps m read fn bs).1.status = "failed") := by
  refine ⟨fun e => rfl, ?_, ?_⟩
  · intro sh hmp
    have hne := (validateRequiredColumns_ne_nil_iff (cmapOf m sh)).mpr hmp
    have hparse : parse_excel_file m (.ok sh)
        = Except.error ("Excel parsing failed: Missing required columns: "
            ++ String.intercalate ", " (validateRequiredColumns (cmapOf m sh))) := by
      have hunfold : parse_excel_file m (.ok sh)
          = if (validateRequiredColumns (cmapOf m sh)).isEmpty then
              Except.ok (processRows (hasPeriodCol (cmapOf m sh)) sh.rows)
            else
              Except.error ("Excel parsing failed: Missing required columns: "
                ++ String.intercalate ", " (validateRequiredColumns (cmapOf m sh))) := rfl
      rw [hunfold, if_neg (fun hc => hne (List.isEmpty_iff.mp hc))]
    refine ⟨"Excel parsing failed: Missing required columns: "
      ++ String.intercalate ", " (validateRequiredColumns (cmapOf m sh)), ?_, rfl, rfl⟩
    simp only [ingest_excel_file, hparse]
  · intro read
    cases read with
    | error e => right; right; rfl
    | ok sh =>
      rcases hp : parse_excel_file m (.ok sh) with e | pr
      · right; right
        simp only [ingest_excel_file, hp]
        rfl
      · simp only [ingest_excel_file, hp]
        by_cases he : pr.1.isEmpty = true
        · right; right
          simp only [he, if_pos]
          rfl
        · simp only [he, if_neg, Bool.false_eq_true, if_false]
          by_cases haud : deps.auditFails = true
          · right; right
            simp only [haud, if_pos]
            rfl
          · simp only [haud, Bool.false_eq_true, if_false]
            by_cases h1 : (bulk_create_policies deps (policiesData pr.1) bs).fail = 0
            · left
              simp [h1]
            · right
              by_cases h2 : 0 < (bulk_create_policies deps (policiesData pr.1) bs).succ
              · left
                simp [h1, h2]
              · right
                simp [h1, h2]

/-- Witness for `C4_entry_point_always_reports`: a concrete read failure
and a concrete unmappable sheet both yield failed reports with nothing
persisted. -/
theorem C4_witness :
    ingest_excel_file benignDeps defaultMapping (.error "corrupt file") "f.xlsx" 1000
      = (failedReport "f.xlsx" ("Excel parsing failed: " ++ "corrupt file"), [])
    ∧ ∃ msg, ingest_excel_file benignDeps defaultMapping (.ok noPolicySheet) "f.xlsx" 1000
        = (failedReport "f.xlsx" msg, [])
        ∧ (failedReport "f.xlsx" msg).processed_rows = 0
        ∧ (failedReport "f.xlsx" msg).errors = [.sErr msg] :=
  ⟨(C4_entry_point_always_reports benignDeps defaultMapping "f.xlsx" 1000).1 "corrupt file",
   (C4_entry_point_always_reports benignDeps defaultMapping "f.xlsx" 1000).2.1
     noPolicySheet (by decide)⟩

/-- C3: a row whose policy number or insured name is empty after trimming
never yields a converted `PolicyRec` (so it is excluded from the batch
handed to the store), the report's `total_rows` still counts every input
row, and any `invalid_numeric` cell errors recorded for that row remain in
the report's error list. -/
theorem C3_empty_identity_rows_excluded
    (deps : Deps) (m : ExcelColumnMapping) (sh : Sheet) (fn : String) (bs : Nat)
    (i : Nat) (r : RawRow)
    (haudit : deps.auditFails = false)
    (hcols : validateRequiredColumns (cmapOf m sh) = [])
    (hne : sh.rows ≠ [])
    (hr : sh.rows.get? i = some r)
    (hempty : trimS r.policy_number = "" ∨ trimS r.insured_name = "") :
    (∀ p : PolicyRec,
      (i, p) ∉ (convertAll 0 (processRows (hasPeriodCol (cmapOf m sh)) sh.rows).1).1)
    ∧ (ingest_excel_file deps m (.ok sh) fn bs).1.total_rows = sh.rows.length
    ∧ (∀ fname : String, ∀ get : RawRow → String, (fname, get) ∈ numericFields →
        (sanitizeNumeric (get r)).2.1 = true →
        ErrItem.vErr (mkNumErr i fname (sanitizeNumeric (get r)).2.2)
          ∈ (ingest_excel_file deps m (.ok sh) fn bs).1.errors) := by
  have hparse : parse_excel_file m (.ok sh)
      = Except.ok (processRows (hasPeriodCol (cmapOf m sh)) sh.rows) := by
    have hunfold : parse_excel_file m (.ok sh)
        = if (validateRequiredColumns (cmapOf m sh)).isEmpty then
            Except.ok (processRows (hasPeriodCol (cmapOf m sh)) sh.rows)
          else
            Except.error ("Excel parsing failed: Missing required columns: "
              ++ String.intercalate ", " (validateRequiredColumns (cmapOf m sh))) := rfl
    rw [hunfold, if_pos (List.isEmpty_iff.mpr hcols)]
  have hnotempty : (processRows (hasPeriodCol (cmapOf m sh)) sh.rows).1.isEmpty = false := by
    rw [processRows_fst]
    cases hrows : sh.rows with
    | nil => exact absurd hrows hne
    | cons a t => simp
  refine ⟨?_, ?_, ?_⟩
  · intro p hmem
    obtain ⟨j, r2, hjr, hij, hok⟩ := convertAll_mem _ 0 i p hmem
    have hj : j = i := by omega
    subst hj
    rw [processRows_fst, List.get?_map, hr] at hjr
    have hr2 : r2 = cleanRowWith r (rowDatesFor (hasPeriodCol (cmapOf m sh)) r).1
        (rowDatesFor (hasPeriodCol (cmapOf m sh)) r).2 := by
      have := Option.some.injEq _ _ |>.mp hjr
      exact this.symm
    subst hr2
    obtain ⟨hpy, hpn, hnm⟩ := convert_ok_inv _ p hok
    unfold pydanticOK at hpy
    have hP := of_decide_eq_true hpy
    obtain ⟨hl1, _, hn1, _⟩ := hP
    rcases hempty with he | he
    · have hcf : cleanStringField r.policy_number = "" := by
        simp [cleanStringField, he]
      have hzero : p.policy_number = "" := by
        rw [hpn]
        show trimS (cleanStringField r.policy_number) = ""
        rw [hcf]
        rfl
      rw [hzero] at hl1
      simp at hl1
    · have hcf : cleanStringField r.insured_name = "" := by
        simp [cleanStringField, he]
      have hzero : p.insured_name = "" := by
        rw [hnm]
        show trimS (cleanStringField r.insured_name) = ""
        rw [hcf]
        rfl
      rw [hzero] at hn1
      simp at hn1
  · simp only [ingest_excel_file, hparse, hnotempty, Bool.false_eq_true, if_false, haudit]
    rw [processRows_fst]
    simp
  · intro fname get hfield hflag
    have herrmem : ErrItem.vErr (mkNumErr i fname (sanitizeNumeric (get r)).2.2)
        ∈ ((processRows (hasPeriodCol (cmapOf m sh)) sh.rows).2.map ErrItem.vErr) := by
      refine List.mem_map_of_mem _ ?_
      rw [processRows_snd]
      refine List.mem_append_left _ (List.mem_append_left _ ?_)
      refine List.mem_flatMap.mpr ⟨(fname, get), hfield, ?_⟩
      simpa using numErrorsAux_mem fname get sh.rows 0 i r hr hflag
    simp only [ingest_excel_file, hparse, hnotempty, Bool.false_eq_true, if_false, haudit]
    exact List.mem_append_left _ (List.mem_append_left _ herrmem)

/-- Witness for `C3_empty_identity_rows_excluded` on the 2-row sheet whose
second row has a whitespace-only insured name and an unconvertible
`sum_insured` cell. -/
theorem C3_witness :
    ((1 : Nat), polA) ∉ (convertAll 0
        (processRows (hasPeriodCol (cmapOf defaultMapping dropSheet)) dropSheet.rows).1).1
    ∧ (ingest_excel_file benignDeps defaultMapping (.ok dropSheet) "policies.xlsx" 1000).1.total_rows
      = dropSheet.rows.length
    ∧ ErrItem.vErr (mkNumErr 1 "sum_insured" (sanitizeNumeric (RawRow.sum_insured rowD)).2.2)
        ∈ (ingest_excel_file benignDeps defaultMapping (.ok dropSheet) "policies.xlsx" 1000).1.errors := by
  have h := C3_empty_identity_rows_excluded benignDeps defaultMapping dropSheet
    "policies.xlsx" 1000 1 rowD rfl (by decide) (by decide) rfl (Or.inr (by decide))
  exact ⟨h.1 polA, h.2.1,
    h.2.2 "sum_insured" RawRow.sum_insured (List.Mem.head _) (by decide)⟩
